import Mathlib

set_option linter.unusedVariables false

/-!
Formal model of the intuitv-watch playback and session telemetry code,
shallowly embedding `src/shared/api/analyticsClient.ts` and
`src/components/WebPlayer.tsx`.

JavaScript numbers are modelled as `ℚ` (positions, stats) or `Nat`
(epoch milliseconds); `Math.random()` draws are passed in explicitly as
rational parameters in `[0, 1)`; asynchronous network outcomes are passed
in explicitly as `Option`/`FetchOutcome` values.
-/

/-! ## Data model (analyticsClient.ts, lines 7-46) -/

structure StreamInfo where
  stream_url : String
  title : String
  description : String
  channel : String
  thumbnail : Option String
  duration : Option ℚ
  live : Bool
deriving DecidableEq, Repr

structure Recommendation where
  id : String
  title : String
  thumbnail : String
  duration : ℚ
  channel : String
  views : ℚ
deriving DecidableEq, Repr

structure ViewerStats where
  current_viewers : ℚ
  total_views : ℚ
  avg_watch_time : ℚ
  engagement_rate : ℚ
deriving DecidableEq, Repr

structure WatchSession where
  session_id : String
  content_id : String
  start_time : Nat
  last_heartbeat : Nat
deriving DecidableEq, Repr

structure SessionMetadata where
  device_type : String
  device_platform : String
  browser : String
  screen_resolution : String
deriving DecidableEq, Repr

/-! ## Telemetry Transport (`WatchAnalyticsClient.fetch`, lines 61-84) -/

/-- Outcome of the underlying browser `fetch` inside
`WatchAnalyticsClient.fetch`: either the promise rejects (network
failure / thrown error), or a response arrives carrying a status code
and a body whose JSON parse either succeeds (`some payload`) or throws
(`none`). -/
inductive FetchOutcome (T : Type) where
  | netFailure
  | response (status : Nat) (body : Option T)
deriving DecidableEq

/-- Result of `WatchAnalyticsClient.fetch`: the returned value
(`null` modelled as `none`) together with console diagnostics. -/
structure FetchResult (T : Type) where
  result : Option T
  logs : List String
deriving DecidableEq

/-- Model of `Response.ok`: status in the 2xx range. -/
def statusOk (status : Nat) : Bool := 200 ≤ status && status < 300

/-- Model of `WatchAnalyticsClient.fetch` (lines 61-84): wraps the browser fetch in
`try`; on a non-ok response logs a warning and returns `null`; on a
network failure or a `response.json()` parse failure the `catch` logs an
error and returns `null`; otherwise returns the parsed body. -/
def clientFetch (T : Type) (endpoint : String) (options : List (String × String))
    (outcome : FetchOutcome T) : FetchResult T :=
  match outcome with
  | .netFailure => ⟨none, ["Watch API error: " ++ endpoint]⟩
  | .response status body =>
    if !statusOk status then
      ⟨none, ["Watch API warning: " ++ toString status ++ " " ++ endpoint]⟩
    else
      match body with
      | none => ⟨none, ["Watch API error: " ++ endpoint]⟩
      | some d => ⟨some d, []⟩

/-! ## Read operations (lines 90-142) and mocks (lines 273-301)

Each read receives `data : Option _`, the awaited result of
`this.fetch` for its endpoint (`none` when the transport reported
unavailability). -/

/-- The `getStreamInfo` fallback object (lines 94-101). -/
def fallbackStreamInfo : StreamInfo :=
  { stream_url := "https://cdn.intuitv.app/stream/demo.m3u8"
    title := "IntuiTV Live Stream"
    description := "AI-powered personalized television"
    channel := "IntuiTV Main"
    live := true
    thumbnail := some "https://cdn.intuitv.app/thumbs/live.jpg"
    duration := none }

/-- Model of `getStreamInfo` (lines 90-105). -/
def getStreamInfo (data : Option StreamInfo) : StreamInfo :=
  match data with
  | none => fallbackStreamInfo
  | some d => d

/-- Title pool in `getMockRecommendations` (lines 274-283). -/
def mockTitles : List String :=
  ["AI Generated Space Documentary", "Futuristic City Tour",
   "Ocean Wildlife Special", "Tech Innovation Series",
   "Cultural Heritage Journey", "Science Explained Simply",
   "Adventure Travel Show", "Music & Art Fusion"]

/-- Channel pool in `getMockRecommendations` (lines 285-291). -/
def mockChannels : List String :=
  ["IntuiTV Docs", "IntuiTV Travel", "IntuiTV Science",
   "IntuiTV Culture", "IntuiTV Entertainment"]

/-- Model of `getMockRecommendations` (lines 273-301):
`Array.from({length: Math.min(limit, 8)}, (_, i) => ...)`; a negative
length is coerced to zero by `Array.from`, modelled by `Int.toNat`.
`rdur i` and `rviews i` are the two `Math.random()` draws made for
entry `i`. -/
def getMockRecommendations (limit : Int) (rdur rviews : Nat → ℚ) :
    List Recommendation :=
  (List.range (min limit 8).toNat).map fun i =>
    { id := "rec-" ++ toString i
      title := mockTitles.getD (i % mockTitles.length) ""
      thumbnail := "https://cdn.intuitv.app/thumbs/rec-" ++ toString i ++ ".jpg"
      duration := ((⌊(300 : ℚ) + rdur i * 600⌋ : Int) : ℚ)
      channel := mockChannels.getD (i % mockChannels.length) ""
      views := ((⌊(10000 : ℚ) + rviews i * 90000⌋ : Int) : ℚ) }

/-- Model of `getRecommendations` (lines 111-123); `userId` only selects the
endpoint string and does not affect the fallback. -/
def getRecommendations (userId : Option String) (limit : Int)
    (data : Option (List Recommendation)) (rdur rviews : Nat → ℚ) :
    List Recommendation :=
  match data with
  | none => getMockRecommendations limit rdur rviews
  | some d => d

/-- Model of `getViewerStats` (lines 129-142); `r1`-`r4` are the four
`Math.random()` draws of the fallback branch. -/
def getViewerStats (data : Option ViewerStats) (r1 r2 r3 r4 : ℚ) : ViewerStats :=
  match data with
  | none =>
    { current_viewers := ((⌊(10000 : ℚ) + r1 * 5000⌋ : Int) : ℚ)
      total_views := ((⌊(500000 : ℚ) + r2 * 100000⌋ : Int) : ℚ)
      avg_watch_time := (4.2 : ℚ) + r3 * 2
      engagement_rate := (0.75 : ℚ) + r4 * (0.2 : ℚ) }
  | some d => d

/-! ## Session write operations (lines 148-211) -/

/-- Model of `startSession` (lines 148-173): posts to `/watch/session/start`;
when the transport yields nothing it synthesizes a local session record
from its own arguments, with `Date.now()` passed in as `now`. -/
def startSession (contentId sessionId : String) (metadata : Option SessionMetadata)
    (now : Nat) (data : Option WatchSession) : WatchSession :=
  match data with
  | none =>
    { session_id := sessionId
      content_id := contentId
      start_time := now
      last_heartbeat := now }
  | some d => d

/-- Model of `sendHeartbeat` (lines 175-192): `data?.success || false`. -/
def sendHeartbeatResult (data : Option Bool) : Bool := data.getD false

/-- Model of `endSession` (lines 194-211): `data?.success || false`. -/
def endSessionResult (data : Option Bool) : Bool := data.getD false

/-! ## Live Stats Channel (`connectToLiveStats`, lines 236-267)

The WebSocket is modelled by its `readyState` and the environment's
events on the connection (open handshake completing, inbound messages,
error, close handshake completing), plus invocations of the returned
unsubscribe closure.  Per the WebSocket contract, message events are
delivered to handlers only while the socket is OPEN. -/

inductive WSState where
  | connecting
  | opened
  | closing
  | closed
deriving DecidableEq, Repr

/-- State of one `connectToLiveStats` subscription.  `ctorFailed`
models the `new WebSocket(...)` constructor throwing, in which case
the `catch` branch returned the no-op closure `() => {}`. -/
structure LiveConn where
  ctorFailed : Bool
  state : WSState
deriving DecidableEq, Repr

/-- Events on a live-stats subscription: the socket opening, an inbound
message (already parsed; `none` = malformed JSON whose parse threw and
was caught and logged), a socket error, the close handshake completing,
and a call to the returned unsubscribe closure. -/
inductive WSEvent where
  | opens
  | message (payload : Option ViewerStats)
  | errored
  | closes
  | unsub
deriving DecidableEq

/-- The closure returned by `connectToLiveStats` (lines 258-262, 265):
after a constructor failure it is `() => {}`; otherwise it runs
`if (ws.readyState === WebSocket.OPEN) ws.close()`, and `close()`
moves the ready state to CLOSING. -/
def wsUnsubscribe (c : LiveConn) : LiveConn :=
  if c.ctorFailed then c
  else if c.state = .opened then { c with state := .closing } else c

/-- One event on the subscription; returns the new connection state and
the list of `onUpdate` callback invocations it caused. -/
def wsStep (c : LiveConn) : WSEvent → LiveConn × List ViewerStats
  | .opens =>
      (if !c.ctorFailed && c.state == .connecting then { c with state := .opened } else c, [])
  | .message payload =>
      if !c.ctorFailed && c.state == .opened then
        match payload with
        | some s => (c, [s])
        | none => (c, [])
      else (c, [])
  | .errored => (c, [])
  | .closes =>
      (if c.ctorFailed then c else { c with state := .closed }, [])
  | .unsub => (wsUnsubscribe c, [])

/-- Run a sequence of events, collecting all callback invocations. -/
def wsRun (c : LiveConn) : List WSEvent → LiveConn × List ViewerStats
  | [] => (c, [])
  | e :: es =>
      let r := wsStep c e
      let rest := wsRun r.1 es
      (rest.1, r.2 ++ rest.2)

/-- Connection state fresh out of a successful `new WebSocket(...)`. -/
def freshConn : LiveConn := ⟨false, .connecting⟩

/-! ## Playback Controller fault recovery (WebPlayer.tsx, lines 67-80) -/

/-- Model of `Hls.ErrorTypes`. -/
inductive HlsErrorType where
  | networkError
  | mediaError
  | keySystemError
  | muxError
  | otherError
deriving DecidableEq, Repr

/-- The `data` argument of the `Hls.Events.ERROR` handler (the fields
it reads). -/
structure HlsErrorData where
  fatal : Bool
  etype : HlsErrorType
deriving DecidableEq, Repr

/-- Recovery actions the handler can take on the pipeline. -/
inductive RecoveryAction where
  | startLoad
  | recoverMediaError
  | destroy
  | noAction
deriving DecidableEq, Repr

/-- The `hls.on(Hls.Events.ERROR, ...)` handler (lines 67-80): for a
fatal error, switch on the error type; a non-fatal error does
nothing. -/
def onHlsError (d : HlsErrorData) : RecoveryAction :=
  if d.fatal then
    match d.etype with
    | .networkError => .startLoad
    | .mediaError => .recoverMediaError
    | _ => .destroy
  else .noAction

/-! ## WebPlayer session telemetry (WebPlayer.tsx, lines 31-173)

The component is modelled as a state machine driven by `<video>` events
(`onPlay`/`onPause`/`onTimeUpdate`/`onEnded`), wall-clock advancement
(which fires armed `setInterval` timers), and unmount.  Per React
semantics, after an event handler updates state, an effect re-runs
exactly when its dependency array changed, running its cleanup first;
the session-start effect (lines 98-116) is declared before the
heartbeat effect (lines 122-130) and runs first.  `cid`/`sid` stand for
`String(contentId)` and the `sessionId` fixed at mount (line 39).
Outbound analytics calls are recorded with the wall-clock time (ms) at
which they were issued. -/

/-- One armed `setInterval` handle from the heartbeat effect: its
timer id, the wall-clock time it was armed, and the `currentTime` and
`sessionId` captured by the interval closure (line 126). -/
structure HBTimer where
  tid : Nat
  armedAt : Nat
  pos : ℚ
  sid : String
deriving DecidableEq, Repr

/-- Outbound calls the component makes: `analyticsClient.startSession`
(line 110), `analyticsClient.sendHeartbeat` (line 126),
`analyticsClient.endSession` (line 159), and the caller-supplied
`onEnded` callback (line 161). -/
inductive Call where
  | startSession (contentId sid : String)
  | heartbeat (sid : String) (pos : Int)
  | endSession (sid : String) (watch : Nat)
  | onEnded
deriving DecidableEq, Repr

/-- Full state of one mounted `WebPlayer`: wall clock (ms), mount flag,
the `playing`/`currentTime`/`sessionStarted` React state,
`startTimeRef.current` (line 41), the armed heartbeat `setInterval`
handles plus the id owned by the current heartbeat-effect registration,
a fresh-timer-id counter, and the time-stamped log of outbound calls. -/
structure World where
  now : Nat
  mounted : Bool
  playing : Bool
  currentTime : ℚ
  sessionStarted : Bool
  startTime : Nat
  nextTid : Nat
  hbTimers : List HBTimer
  hbOwned : Option Nat
  calls : List (Nat × Call)
deriving DecidableEq, Repr

/-- Events driving the model: the four `<video>` events wired up at
lines 214-218, wall-clock advancement by `dt` ms, and unmount. -/
inductive PlayerEvent where
  | play
  | pause
  | timeUpdate (t : ℚ)
  | ended
  | tick (dt : Nat)
  | unmount
deriving DecidableEq, Repr

/-- Dependency array of the session-start effect (line 116), minus the
constant `contentId`/`sessionId`. -/
def sessionDeps (w : World) : Bool × Bool := (w.playing, w.sessionStarted)

/-- Dependency array of the heartbeat effect (line 130), minus the
constant `sessionId`. -/
def hbDeps (w : World) : Bool × ℚ := (w.playing, w.currentTime)

/-- Body of the session-start effect (lines 98-116): on the first
render where `playing && !sessionStarted`, set the one-shot flag,
capture `startTimeRef.current = Date.now()` and issue `startSession`. -/
def runSessionEffect (cid sid : String) (w : World) : World :=
  if w.playing && !w.sessionStarted then
    { w with sessionStarted := true
             startTime := w.now
             calls := w.calls ++ [(w.now, Call.startSession cid sid)] }
  else w

/-- Cleanup of the heartbeat effect (line 129): `clearInterval` on the
interval this effect registration created, if any. -/
def clearOwnedTimer (w : World) : World :=
  match w.hbOwned with
  | none => w
  | some i => { w with hbTimers := w.hbTimers.filter (fun t => t.tid != i)
                       hbOwned := none }

/-- Body of the heartbeat effect (lines 122-130), run after its
cleanup: bail out if not playing, else arm a fresh 30-second interval
whose closure captured the current `currentTime` and `sessionId`. -/
def runHeartbeatEffect (sid : String) (w : World) : World :=
  let w' := clearOwnedTimer w
  if w'.playing then
    { w' with hbTimers := w'.hbTimers ++ [⟨w'.nextTid, w'.now, w'.currentTime, sid⟩]
              hbOwned := some w'.nextTid
              nextTid := w'.nextTid + 1 }
  else w'

/-- React commit after an event handler ran: `w0` is the state of the
previous render, `w1` the state after the handler.  Each effect re-runs
exactly when its dependency array changed, session effect first.  The
follow-up render caused by `setSessionStarted(true)` re-runs the
session effect with its guard now false and leaves the heartbeat
dependencies untouched, so it is a no-op and is not modelled. -/
def commit (cid sid : String) (w0 w1 : World) : World :=
  let w2 := if sessionDeps w1 = sessionDeps w0 then w1 else runSessionEffect cid sid w1
  if hbDeps w1 = hbDeps w0 then w2 else runHeartbeatEffect sid w2

/-- Number of times an interval armed at `t.armedAt` with a 30000 ms
period fires while the wall clock moves from `oldNow` to `newNow`. -/
def firesIn (t : HBTimer) (oldNow newNow : Nat) : Nat :=
  (newNow - t.armedAt) / 30000 - (oldNow - t.armedAt) / 30000

/-- Heartbeat calls issued by the armed intervals while the wall clock
moves from `oldNow` to `newNow`: each firing sends
`sendHeartbeat(sessionId, Math.floor(currentTime))` with the values the
closure captured (line 126). -/
def tickCalls (oldNow newNow : Nat) (ts : List HBTimer) : List (Nat × Call) :=
  (ts.map fun t =>
    (List.range (firesIn t oldNow newNow)).map fun k =>
      (t.armedAt + 30000 * ((oldNow - t.armedAt) / 30000 + k + 1),
       Call.heartbeat t.sid ⌊t.pos⌋)).flatten

/-- One step of the component.  `<video>` events reach the handlers
only while mounted; `handleEnded` (lines 152-162) issues `endSession`
with `Math.floor((Date.now() - startTimeRef.current) / 1000)` and then
invokes the `onEnded` prop, before the commit re-runs the effects;
unmount runs the effect cleanups (only the heartbeat effect has one
relevant here). -/
def step (cid sid : String) (w : World) : PlayerEvent → World
  | .play => if w.mounted then commit cid sid w { w with playing := true } else w
  | .pause => if w.mounted then commit cid sid w { w with playing := false } else w
  | .timeUpdate t => if w.mounted then commit cid sid w { w with currentTime := t } else w
  | .ended =>
      if w.mounted then
        commit cid sid w
          { w with playing := false
                   calls := w.calls ++
                     [(w.now, Call.endSession sid ((w.now - w.startTime) / 1000)),
                      (w.now, Call.onEnded)] }
      else w
  | .tick dt =>
      let newNow := w.now + dt
      { w with now := newNow
               calls := w.calls ++ tickCalls w.now newNow w.hbTimers }
  | .unmount =>
      if w.mounted then { clearOwnedTimer w with mounted := false } else w

/-- State at mount (the mount-time effect pass is a no-op for both
telemetry effects since `playing` is false). -/
def initWorld : World :=
  { now := 0, mounted := true, playing := false, currentTime := 0
    sessionStarted := false, startTime := 0, nextTid := 0
    hbTimers := [], hbOwned := none, calls := [] }

/-- Run a trace of events from mount. -/
def run (cid sid : String) (tr : List PlayerEvent) : World :=
  tr.foldl (step cid sid) initWorld

/-- The `startSession` entries of a call log. -/
def startTimedCalls (cs : List (Nat × Call)) : List (Nat × Call) :=
  cs.filter fun c =>
    match c.2 with
    | Call.startSession _ _ => true
    | _ => false

/-- The `sendHeartbeat` entries of a call log. -/
def hbTimedCalls (cs : List (Nat × Call)) : List (Nat × Call) :=
  cs.filter fun c =>
    match c.2 with
    | Call.heartbeat _ _ => true
    | _ => false

/-- The `endSession` entries of a call log. -/
def endTimedCalls (cs : List (Nat × Call)) : List (Nat × Call) :=
  cs.filter fun c =>
    match c.2 with
    | Call.endSession _ _ => true
    | _ => false

/-! ## Invariants and validity predicates -/

/-- Coherence of the heartbeat effect's interval bookkeeping: either no
interval is armed, or exactly the single one owned by the current
effect registration. -/
def TimerOK (w : World) : Prop :=
  (w.hbOwned = none ∧ w.hbTimers = []) ∨
  (∃ t, w.hbOwned = some t.tid ∧ w.hbTimers = [t])

/-- Session bookkeeping: before the one-shot flag fires, no
`startSession` call was logged and playback has never been observed
playing; afterwards, exactly one `startSession` call is logged, stamped
with the captured start instant. -/
def SessionOK (cid sid : String) (w : World) : Prop :=
  (w.sessionStarted = false → startTimedCalls w.calls = [] ∧ w.playing = false) ∧
  (w.sessionStarted = true →
    startTimedCalls w.calls = [(w.startTime, Call.startSession cid sid)])

/-- Global invariant of a mounted-player run. -/
def PlayerInv (cid sid : String) (w : World) : Prop :=
  TimerOK w ∧ SessionOK cid sid w ∧
  (w.mounted = false → w.hbTimers = [] ∧ w.hbOwned = none)

/-- Shape of the synthetic `getViewerStats` fallback: each field within
the range its `Math.random()` expression can produce, in particular an
engagement rate in `[0, 1]`. -/
def validFallbackStats (s : ViewerStats) : Prop :=
  10000 ≤ s.current_viewers ∧ s.current_viewers < 15000 ∧
  500000 ≤ s.total_views ∧ s.total_views < 600000 ∧
  (4.2 : ℚ) ≤ s.avg_watch_time ∧ s.avg_watch_time < (6.2 : ℚ) ∧
  0 ≤ s.engagement_rate ∧ s.engagement_rate ≤ 1

/-! ## Theorems -/

/-- Claim C5: for every fatal pipeline error event, the recovery action
is determined by its class — a network-class fatal error triggers a
resume-load (`startLoad`) and not pipeline destruction; a
media-decode-class fatal error triggers in-place media error recovery;
any other fatal class destroys the pipeline; a non-fatal error triggers
no recovery action. -/
theorem C5_fault_tiering :
    onHlsError ⟨true, .networkError⟩ = .startLoad ∧
    onHlsError ⟨true, .networkError⟩ ≠ .destroy ∧
    onHlsError ⟨true, .mediaError⟩ = .recoverMediaError ∧
    (∀ t : HlsErrorType, t ≠ .networkError → t ≠ .mediaError →
      onHlsError ⟨true, t⟩ = .destroy) ∧
    (∀ t : HlsErrorType, onHlsError ⟨false, t⟩ = .noAction) := by
  refine ⟨rfl, by decide, rfl, ?_, ?_⟩
  · intro t h1 h2
    cases t <;> simp_all <;> rfl
  · intro t
    cases t <;> rfl

/-- Witness for C5 at a concrete unclassified fatal error. -/
theorem C5_fault_tiering_witness :
    onHlsError ⟨true, HlsErrorType.muxError⟩ = RecoveryAction.destroy :=
  C5_fault_tiering.2.2.2.1 HlsErrorType.muxError (by decide) (by decide)

/-- Claim C8: the Telemetry Transport call never throws across its
boundary — on any network failure, non-2xx response status, or
response-body parse failure it returns the explicit unavailable result
(`null`) and logs a diagnostic, for every endpoint and options
argument; on a 2xx response with a parseable body it returns the
payload. -/
theorem C8_transport_never_throws (T : Type) (endpoint : String)
    (options : List (String × String)) (outcome : FetchOutcome T) :
    (clientFetch T endpoint options .netFailure =
      ⟨none, ["Watch API error: " ++ endpoint]⟩) ∧
    (∀ status body, statusOk status = false →
      clientFetch T endpoint options (.response status body) =
        ⟨none, ["Watch API warning: " ++ toString status ++ " " ++ endpoint]⟩) ∧
    (∀ status, statusOk status = true →
      clientFetch T endpoint options (.response status none) =
        ⟨none, ["Watch API error: " ++ endpoint]⟩) ∧
    (∀ status d, statusOk status = true →
      clientFetch T endpoint options (.response status (some d)) = ⟨some d, []⟩) ∧
    ((clientFetch T endpoint options outcome).result = none →
      (clientFetch T endpoint options outcome).logs ≠ []) := by
  refine ⟨rfl, ?_, ?_, ?_, ?_⟩
  · intro status body h
    simp [clientFetch, h]
  · intro status h
    simp [clientFetch, h]
  · intro status d h
    simp [clientFetch, h]
  · intro hnone
    match outcome with
    | .netFailure => simp [clientFetch]
    | .response status body =>
      by_cases h : statusOk status
      · match body with
        | none => simp [clientFetch, h]
        | some d => simp [clientFetch, h] at hnone
      · simp [clientFetch, h]

/-- Witness for C8: a 503 response and a parse failure both yield the
unavailable result with a diagnostic. -/
theorem C8_transport_never_throws_witness :
    clientFetch Nat "/watch/stats/x" [] (.response 503 (some 7)) =
      ⟨none, ["Watch API warning: " ++ toString 503 ++ " " ++ "/watch/stats/x"]⟩ ∧
    clientFetch Nat "/watch/stats/x" [] (.response 200 none) =
      ⟨none, ["Watch API error: " ++ "/watch/stats/x"]⟩ :=
  ⟨(C8_transport_never_throws Nat "/watch/stats/x" [] .netFailure).2.1 503 (some 7) (by decide),
   (C8_transport_never_throws Nat "/watch/stats/x" [] .netFailure).2.2.1 200 (by decide)⟩

/-- Claim C9: `startSession` never yields failure to its caller — when
the backend is unreachable or returns no usable record, it returns a
locally synthesized session record whose `session_id` and `content_id`
equal the arguments passed in; when the backend answers, it returns the
server's record. -/
theorem C9_startSession_fallback (contentId sessionId : String)
    (md : Option SessionMetadata) (now : Nat) (data : Option WatchSession) :
    (∀ d, startSession contentId sessionId md now (some d) = d) ∧
    (data = none →
      startSession contentId sessionId md now data =
        { session_id := sessionId, content_id := contentId,
          start_time := now, last_heartbeat := now }) := by
  refine ⟨fun d => rfl, fun h => ?_⟩
  subst h
  rfl

/-- Witness for C9 at a concrete unreachable-backend call. -/
theorem C9_startSession_fallback_witness :
    startSession "42" "session-1" none 1700 none =
      { session_id := "session-1", content_id := "42",
        start_time := 1700, last_heartbeat := 1700 } :=
  (C9_startSession_fallback "42" "session-1" none 1700 none).2 rfl

/-- Lower bound of `Math.floor(b + r * s)` for an integer base `b`,
span `s ≥ 0` and draw `r ≥ 0`. -/
theorem floor_affine_lb (b : Int) (s r : ℚ) (hs : 0 ≤ s) (h0 : 0 ≤ r) :
    (b : ℚ) ≤ ((⌊(b : ℚ) + r * s⌋ : Int) : ℚ) := by
  have h : b ≤ ⌊(b : ℚ) + r * s⌋ := Int.le_floor.mpr (by nlinarith)
  exact_mod_cast h

/-- Upper bound of `Math.floor(b + r * s)` for a draw `r < 1`. -/
theorem floor_affine_ub (b : Int) (s r : ℚ) (h1 : r < 1) (hs : 0 < s) :
    ((⌊(b : ℚ) + r * s⌋ : Int) : ℚ) < (b : ℚ) + s := by
  have h := Int.floor_le ((b : ℚ) + r * s)
  have h2 : r * s < s := by nlinarith [mul_pos (by linarith : (0:ℚ) < 1 - r) hs]
  linarith

/-- Claim C6: each read operation (`getStreamInfo`,
`getRecommendations`, `getViewerStats`) returns a non-null, well-typed
value under both transport success and transport failure — when the
transport returns payload `P` the client returns exactly `P`, and when
the transport reports unavailability the client returns a structurally
valid synthetic fallback of the same shape. -/
theorem C6_reads_round_trip (P1 : StreamInfo) (P2 : ViewerStats)
    (P3 : List Recommendation) (uid : Option String) (limit : Int)
    (r1 r2 r3 r4 : ℚ) (rdur rviews : Nat → ℚ)
    (h1 : 0 ≤ r1 ∧ r1 < 1) (h2 : 0 ≤ r2 ∧ r2 < 1)
    (h3 : 0 ≤ r3 ∧ r3 < 1) (h4 : 0 ≤ r4 ∧ r4 < 1) :
    getStreamInfo (some P1) = P1 ∧
    getViewerStats (some P2) r1 r2 r3 r4 = P2 ∧
    getRecommendations uid limit (some P3) rdur rviews = P3 ∧
    (getStreamInfo none).stream_url ≠ "" ∧
    (getStreamInfo none).title ≠ "" ∧
    (getStreamInfo none).channel ≠ "" ∧
    (getStreamInfo none).live = true ∧
    validFallbackStats (getViewerStats none r1 r2 r3 r4) ∧
    getRecommendations uid limit none rdur rviews =
      getMockRecommendations limit rdur rviews ∧
    (1 ≤ limit → getRecommendations uid limit none rdur rviews ≠ []) := by
  refine ⟨rfl, rfl, rfl, by decide, by decide, by decide, rfl, ?_, rfl, ?_⟩
  · refine ⟨?_, ?_, ?_, ?_, ?_, ?_, ?_, ?_⟩
    · show (10000 : ℚ) ≤ ((⌊(10000 : ℚ) + r1 * 5000⌋ : Int) : ℚ)
      exact_mod_cast floor_affine_lb 10000 5000 r1 (by norm_num) h1.1
    · show ((⌊(10000 : ℚ) + r1 * 5000⌋ : Int) : ℚ) < 15000
      have := floor_affine_ub 10000 5000 r1 h1.2 (by norm_num)
      push_cast at this ⊢
      linarith
    · show (500000 : ℚ) ≤ ((⌊(500000 : ℚ) + r2 * 100000⌋ : Int) : ℚ)
      exact_mod_cast floor_affine_lb 500000 100000 r2 (by norm_num) h2.1
    · show ((⌊(500000 : ℚ) + r2 * 100000⌋ : Int) : ℚ) < 600000
      have := floor_affine_ub 500000 100000 r2 h2.2 (by norm_num)
      push_cast at this ⊢
      linarith
    · show (4.2 : ℚ) ≤ (4.2 : ℚ) + r3 * 2
      nlinarith [h3.1]
    · show (4.2 : ℚ) + r3 * 2 < (6.2 : ℚ)
      nlinarith [h3.2]
    · show (0 : ℚ) ≤ (0.75 : ℚ) + r4 * (0.2 : ℚ)
      nlinarith [h4.1]
    · show (0.75 : ℚ) + r4 * (0.2 : ℚ) ≤ 1
      nlinarith [h4.2]
  · intro hl
    have hm : (1 : Int) ≤ min limit 8 := le_min hl (by norm_num)
    simp only [getRecommendations, getMockRecommendations, ne_eq,
      List.map_eq_nil_iff, List.range_eq_nil]
    omega

/-- Witness for C6 at concrete draws and payloads. -/
theorem C6_reads_round_trip_witness :
    validFallbackStats (getViewerStats none (1/2) (1/2) (1/2) (1/2)) ∧
    getRecommendations none 5 none (fun _ => 0) (fun _ => 0) ≠ [] := by
  have h := C6_reads_round_trip fallbackStreamInfo ⟨0, 0, 0, 0⟩ [] none 5
    (1/2) (1/2) (1/2) (1/2) (fun _ => 0) (fun _ => 0)
    ⟨by norm_num, by norm_num⟩ ⟨by norm_num, by norm_num⟩
    ⟨by norm_num, by norm_num⟩ ⟨by norm_num, by norm_num⟩
  exact ⟨h.2.2.2.2.2.2.2.1, h.2.2.2.2.2.2.2.2.2 (by norm_num)⟩

/-- Claim C10: when the transport is unavailable, `getRecommendations`
returns a fallback list of exactly `min(limit, 8)` entries — a caller
requesting `limit > 8` receives only 8 items, and `limit ≤ 0` yields an
empty list — each entry having all declared `Recommendation` fields
populated. -/
theorem C10_mock_recommendations_shape (uid : Option String) (limit : Int)
    (rdur rviews : Nat → ℚ)
    (hd : ∀ i, 0 ≤ rdur i ∧ rdur i < 1) (hv : ∀ i, 0 ≤ rviews i ∧ rviews i < 1) :
    getRecommendations uid limit none rdur rviews =
      getMockRecommendations limit rdur rviews ∧
    (getMockRecommendations limit rdur rviews).length = (min limit 8).toNat ∧
    (8 < limit → (getMockRecommendations limit rdur rviews).length = 8) ∧
    (limit ≤ 0 → getMockRecommendations limit rdur rviews = []) ∧
    (∀ r ∈ getMockRecommendations limit rdur rviews,
      r.id ≠ "" ∧ r.title ∈ mockTitles ∧ r.thumbnail ≠ "" ∧
      300 ≤ r.duration ∧ r.duration < 900 ∧ r.channel ∈ mockChannels ∧
      10000 ≤ r.views ∧ r.views < 100000) := by
  refine ⟨rfl, by simp [getMockRecommendations], ?_, ?_, ?_⟩
  · intro h
    have hm : min limit 8 = 8 := min_eq_right (le_of_lt h)
    simp [getMockRecommendations, hm]
  · intro h
    have hm : min limit 8 ≤ limit := min_le_left _ _
    have hz : (min limit 8).toNat = 0 := by omega
    simp [getMockRecommendations, hz]
  · intro r hr
    simp only [getMockRecommendations, List.mem_map, List.mem_range] at hr
    obtain ⟨i, hi, rfl⟩ := hr
    refine ⟨?_, ?_, ?_, ?_, ?_, ?_, ?_, ?_⟩
    · intro h
      have hlen := congrArg String.length h
      rw [String.length_append] at hlen
      simp at hlen
      exact absurd hlen.1 (by decide)
    · have hlt : i % mockTitles.length < mockTitles.length :=
        Nat.mod_lt _ (by decide)
      rw [List.getD_eq_getElem _ _ hlt]
      exact List.getElem_mem hlt
    · intro h
      have hlen := congrArg String.length h
      rw [String.length_append] at hlen
      simp [String.length_append] at hlen
      exact absurd hlen.2 (by decide)
    · show (300 : ℚ) ≤ ((⌊(300 : ℚ) + rdur i * 600⌋ : Int) : ℚ)
      exact_mod_cast floor_affine_lb 300 600 (rdur i) (by norm_num) (hd i).1
    · show ((⌊(300 : ℚ) + rdur i * 600⌋ : Int) : ℚ) < 900
      have := floor_affine_ub 300 600 (rdur i) (hd i).2 (by norm_num)
      push_cast at this ⊢
      linarith
    · have hlt : i % mockChannels.length < mockChannels.length :=
        Nat.mod_lt _ (by decide)
      rw [List.getD_eq_getElem _ _ hlt]
      exact List.getElem_mem hlt
    · show (10000 : ℚ) ≤ ((⌊(10000 : ℚ) + rviews i * 90000⌋ : Int) : ℚ)
      exact_mod_cast floor_affine_lb 10000 90000 (rviews i) (by norm_num) (hv i).1
    · show ((⌊(10000 : ℚ) + rviews i * 90000⌋ : Int) : ℚ) < 100000
      have := floor_affine_ub 10000 90000 (rviews i) (hv i).2 (by norm_num)
      push_cast at this ⊢
      linarith

/-- Witness for C10: a caller asking for 9 items gets exactly 8. -/
theorem C10_mock_recommendations_shape_witness :
    (getMockRecommendations 9 (fun _ => 1/2) (fun _ => 1/2)).length = 8 :=
  (C10_mock_recommendations_shape none 9 (fun _ => 1/2) (fun _ => 1/2)
    (fun i => ⟨by norm_num, by norm_num⟩)
    (fun i => ⟨by norm_num, by norm_num⟩)).2.2.1 (by norm_num)

/-- Once the connection is neither OPEN nor CONNECTING, no later event
can fire the update callback (the socket cannot re-open, and message
events are delivered only while OPEN). -/
theorem wsRun_no_output (c : LiveConn)
    (h1 : c.state ≠ .opened) (h2 : c.state ≠ .connecting) :
    ∀ evs, (wsRun c evs).2 = [] := by
  intro evs
  induction evs generalizing c with
  | nil => rfl
  | cons e es ih =>
    obtain ⟨f, s⟩ := c
    cases e with
    | opens =>
      simp only [wsRun, wsStep]
      have hs : (s == WSState.connecting) = false := by
        cases s <;> simp_all
      simp [hs]
      exact ih ⟨f, s⟩ h1 h2
    | message payload =>
      simp only [wsRun, wsStep]
      have hs : (s == WSState.opened) = false := by
        cases s <;> simp_all
      simp [hs]
      exact ih ⟨f, s⟩ h1 h2
    | errored =>
      simp only [wsRun, wsStep]
      simp
      exact ih ⟨f, s⟩ h1 h2
    | closes =>
      simp only [wsRun, wsStep]
      simp only [List.nil_append]
      cases f
      · exact ih ⟨false, .closed⟩ (by simp) (by simp)
      · exact ih ⟨true, s⟩ h1 h2
    | unsub =>
      simp only [wsRun, wsStep, wsUnsubscribe]
      simp only [List.nil_append]
      cases f
      · simp only [Bool.false_eq_true, if_false]
        have hs : ¬ s = WSState.opened := h1
        simp only [if_neg hs]
        exact ih ⟨false, s⟩ h1 h2
      · simp only [if_true]
        exact ih ⟨true, s⟩ h1 h2

/-- Claim C3 counterexample: the claim asserts that after
`unsubscribe()` returns the registered update callback never fires
again, including when called before the connection has opened.  But the
returned closure closes the socket only when `readyState === OPEN`:
calling it while still CONNECTING is a no-op, the socket still opens,
and a subsequent message fires the callback — here concretely, a
subscription is unsubscribed before the open handshake, then opens and
receives one stats message, and the callback fires once after
`unsubscribe()` returned. -/
theorem C3_unsubscribe_counterexample :
    (wsRun freshConn
      [.unsub, .opens, .message (some ⟨100, 1000, 5, 1⟩)]).2
      = [⟨100, 1000, 5, 1⟩] := by
  decide

/-- Claim C3 (amended): the unsubscribe function is idempotent (calling
it a second time changes nothing), safe to call before the connection
has opened (it neither throws nor changes the connection) and after a
constructor failure; and when it is called while the connection is
open, it closes the connection and no update callback fires afterwards.
If it is called before the connection opens, however, the socket is not
closed and callbacks may still fire once it opens. -/
theorem C3_unsubscribe_amended :
    (∀ c : LiveConn, wsUnsubscribe (wsUnsubscribe c) = wsUnsubscribe c) ∧
    (∀ c : LiveConn, c.state = .connecting → wsUnsubscribe c = c) ∧
    (∀ c : LiveConn, c.ctorFailed = true → wsUnsubscribe c = c) ∧
    (∀ (c : LiveConn) (evs : List WSEvent), c.ctorFailed = false →
      c.state = .opened → (wsRun (wsUnsubscribe c) evs).2 = []) := by
  refine ⟨?_, ?_, ?_, ?_⟩
  · intro c
    obtain ⟨f, s⟩ := c
    cases f <;> cases s <;> rfl
  · intro c h
    obtain ⟨f, s⟩ := c
    cases h
    cases f <;> rfl
  · intro c h
    obtain ⟨f, s⟩ := c
    cases h
    rfl
  · intro c evs hf hs
    obtain ⟨f, s⟩ := c
    cases hf
    cases hs
    exact wsRun_no_output ⟨false, .closing⟩ (by simp) (by simp) evs

/-- Witness for C3 (amended): concrete no-op before open, and no
callback after unsubscribing an open connection. -/
theorem C3_unsubscribe_amended_witness :
    wsUnsubscribe freshConn = freshConn ∧
    (wsRun (wsUnsubscribe ⟨false, .opened⟩)
      [.opens, .message (some ⟨1, 2, 3, 4⟩)]).2 = [] :=
  ⟨C3_unsubscribe_amended.2.1 freshConn rfl,
   C3_unsubscribe_amended.2.2.2 ⟨false, .opened⟩ _ rfl rfl⟩

/-! ## WebPlayer lemmas -/

@[simp] theorem clearOwnedTimer_now (w : World) : (clearOwnedTimer w).now = w.now := by
  cases h : w.hbOwned <;> simp [clearOwnedTimer, h]

@[simp] theorem clearOwnedTimer_mounted (w : World) :
    (clearOwnedTimer w).mounted = w.mounted := by
  cases h : w.hbOwned <;> simp [clearOwnedTimer, h]

@[simp] theorem clearOwnedTimer_playing (w : World) :
    (clearOwnedTimer w).playing = w.playing := by
  cases h : w.hbOwned <;> simp [clearOwnedTimer, h]

@[simp] theorem clearOwnedTimer_currentTime (w : World) :
    (clearOwnedTimer w).currentTime = w.currentTime := by
  cases h : w.hbOwned <;> simp [clearOwnedTimer, h]

@[simp] theorem clearOwnedTimer_sessionStarted (w : World) :
    (clearOwnedTimer w).sessionStarted = w.sessionStarted := by
  cases h : w.hbOwned <;> simp [clearOwnedTimer, h]

@[simp] theorem clearOwnedTimer_startTime (w : World) :
    (clearOwnedTimer w).startTime = w.startTime := by
  cases h : w.hbOwned <;> simp [clearOwnedTimer, h]

@[simp] theorem clearOwnedTimer_nextTid (w : World) :
    (clearOwnedTimer w).nextTid = w.nextTid := by
  cases h : w.hbOwned <;> simp [clearOwnedTimer, h]

@[simp] theorem clearOwnedTimer_calls (w : World) :
    (clearOwnedTimer w).calls = w.calls := by
  cases h : w.hbOwned <;> simp [clearOwnedTimer, h]

@[simp] theorem clearOwnedTimer_hbOwned (w : World) :
    (clearOwnedTimer w).hbOwned = none := by
  cases h : w.hbOwned <;> simp [clearOwnedTimer, h]

/-- Clearing the owned interval from a coherent timer state leaves no
armed interval. -/
theorem clearOwnedTimer_clears (w : World) (h : TimerOK w) :
    (clearOwnedTimer w).hbTimers = [] := by
  rcases h with ⟨h1, h2⟩ | ⟨t, h1, h2⟩
  · simp [clearOwnedTimer, h1, h2]
  · simp [clearOwnedTimer, h1, h2]

@[simp] theorem runSessionEffect_now (cid sid : String) (w : World) :
    (runSessionEffect cid sid w).now = w.now := by
  unfold runSessionEffect; split <;> rfl

@[simp] theorem runSessionEffect_mounted (cid sid : String) (w : World) :
    (runSessionEffect cid sid w).mounted = w.mounted := by
  unfold runSessionEffect; split <;> rfl

@[simp] theorem runSessionEffect_playing (cid sid : String) (w : World) :
    (runSessionEffect cid sid w).playing = w.playing := by
  unfold runSessionEffect; split <;> rfl

@[simp] theorem runSessionEffect_currentTime (cid sid : String) (w : World) :
    (runSessionEffect cid sid w).currentTime = w.currentTime := by
  unfold runSessionEffect; split <;> rfl

@[simp] theorem runSessionEffect_hbTimers (cid sid : String) (w : World) :
    (runSessionEffect cid sid w).hbTimers = w.hbTimers := by
  unfold runSessionEffect; split <;> rfl

@[simp] theorem runSessionEffect_hbOwned (cid sid : String) (w : World) :
    (runSessionEffect cid sid w).hbOwned = w.hbOwned := by
  unfold runSessionEffect; split <;> rfl

@[simp] theorem runSessionEffect_nextTid (cid sid : String) (w : World) :
    (runSessionEffect cid sid w).nextTid = w.nextTid := by
  unfold runSessionEffect; split <;> rfl

@[simp] theorem runHeartbeatEffect_now (sid : String) (w : World) :
    (runHeartbeatEffect sid w).now = w.now := by
  simp only [runHeartbeatEffect]; split <;> simp

@[simp] theorem runHeartbeatEffect_mounted (sid : String) (w : World) :
    (runHeartbeatEffect sid w).mounted = w.mounted := by
  simp only [runHeartbeatEffect]; split <;> simp

@[simp] theorem runHeartbeatEffect_playing (sid : String) (w : World) :
    (runHeartbeatEffect sid w).playing = w.playing := by
  simp only [runHeartbeatEffect]; split <;> simp

@[simp] theorem runHeartbeatEffect_currentTime (sid : String) (w : World) :
    (runHeartbeatEffect sid w).currentTime = w.currentTime := by
  simp only [runHeartbeatEffect]; split <;> simp

@[simp] theorem runHeartbeatEffect_sessionStarted (sid : String) (w : World) :
    (runHeartbeatEffect sid w).sessionStarted = w.sessionStarted := by
  simp only [runHeartbeatEffect]; split <;> simp

@[simp] theorem runHeartbeatEffect_startTime (sid : String) (w : World) :
    (runHeartbeatEffect sid w).startTime = w.startTime := by
  simp only [runHeartbeatEffect]; split <;> simp

@[simp] theorem runHeartbeatEffect_calls (sid : String) (w : World) :
    (runHeartbeatEffect sid w).calls = w.calls := by
  simp only [runHeartbeatEffect]; split <;> simp

@[simp] theorem commit_now (cid sid : String) (w0 w1 : World) :
    (commit cid sid w0 w1).now = w1.now := by
  unfold commit; split <;> split <;> simp

@[simp] theorem commit_mounted (cid sid : String) (w0 w1 : World) :
    (commit cid sid w0 w1).mounted = w1.mounted := by
  unfold commit; split <;> split <;> simp

@[simp] theorem commit_playing (cid sid : String) (w0 w1 : World) :
    (commit cid sid w0 w1).playing = w1.playing := by
  unfold commit; split <;> split <;> simp

@[simp] theorem startTimedCalls_append (a b : List (Nat × Call)) :
    startTimedCalls (a ++ b) = startTimedCalls a ++ startTimedCalls b :=
  List.filter_append a b

@[simp] theorem endTimedCalls_append (a b : List (Nat × Call)) :
    endTimedCalls (a ++ b) = endTimedCalls a ++ endTimedCalls b :=
  List.filter_append a b

@[simp] theorem hbTimedCalls_append (a b : List (Nat × Call)) :
    hbTimedCalls (a ++ b) = hbTimedCalls a ++ hbTimedCalls b :=
  List.filter_append a b

/-- Every call a tick emits is a heartbeat. -/
theorem tickCalls_are_heartbeats (o n : Nat) (ts : List HBTimer) :
    ∀ x ∈ tickCalls o n ts, ∃ s p, x.2 = Call.heartbeat s p := by
  intro x hx
  simp only [tickCalls, List.mem_flatten, List.mem_map] at hx
  obtain ⟨l, ⟨t, ht, rfl⟩, hxl⟩ := hx
  obtain ⟨k, hk, rfl⟩ := List.mem_map.mp hxl
  exact ⟨t.sid, ⌊t.pos⌋, rfl⟩

@[simp] theorem startTimedCalls_tickCalls (o n : Nat) (ts : List HBTimer) :
    startTimedCalls (tickCalls o n ts) = [] := by
  rw [startTimedCalls, List.filter_eq_nil_iff]
  intro x hx
  obtain ⟨s, p, hxx⟩ := tickCalls_are_heartbeats o n ts x hx
  rw [hxx]
  simp

@[simp] theorem endTimedCalls_tickCalls (o n : Nat) (ts : List HBTimer) :
    endTimedCalls (tickCalls o n ts) = [] := by
  rw [endTimedCalls, List.filter_eq_nil_iff]
  intro x hx
  obtain ⟨s, p, hxx⟩ := tickCalls_are_heartbeats o n ts x hx
  rw [hxx]
  simp

/-- The session-start effect is a no-op once the one-shot flag is set. -/
theorem runSessionEffect_noop_started (cid sid : String) (w : World)
    (h : w.sessionStarted = true) : runSessionEffect cid sid w = w := by
  unfold runSessionEffect
  simp [h]

/-- The session-start effect is a no-op while not playing. -/
theorem runSessionEffect_noop_notPlaying (cid sid : String) (w : World)
    (h : w.playing = false) : runSessionEffect cid sid w = w := by
  unfold runSessionEffect
  simp [h]

theorem commit_calls_started (cid sid : String) (w0 w1 : World)
    (h : w1.sessionStarted = true) :
    (commit cid sid w0 w1).calls = w1.calls := by
  simp only [commit]
  split <;> split <;>
    simp [runSessionEffect_noop_started cid sid w1 h]

theorem commit_startTime_started (cid sid : String) (w0 w1 : World)
    (h : w1.sessionStarted = true) :
    (commit cid sid w0 w1).startTime = w1.startTime := by
  simp only [commit]
  split <;> split <;>
    simp [runSessionEffect_noop_started cid sid w1 h]

theorem commit_sessionStarted_started (cid sid : String) (w0 w1 : World)
    (h : w1.sessionStarted = true) :
    (commit cid sid w0 w1).sessionStarted = true := by
  simp only [commit]
  split <;> split <;>
    simp [runSessionEffect_noop_started cid sid w1 h, h]

theorem commit_calls_notPlaying (cid sid : String) (w0 w1 : World)
    (h : w1.playing = false) :
    (commit cid sid w0 w1).calls = w1.calls := by
  simp only [commit]
  split <;> split <;>
    simp [runSessionEffect_noop_notPlaying cid sid w1 h]

theorem commit_startTime_notPlaying (cid sid : String) (w0 w1 : World)
    (h : w1.playing = false) :
    (commit cid sid w0 w1).startTime = w1.startTime := by
  simp only [commit]
  split <;> split <;>
    simp [runSessionEffect_noop_notPlaying cid sid w1 h]

theorem commit_sessionStarted_notPlaying (cid sid : String) (w0 w1 : World)
    (h : w1.playing = false) :
    (commit cid sid w0 w1).sessionStarted = w1.sessionStarted := by
  simp only [commit]
  split <;> split <;>
    simp [runSessionEffect_noop_notPlaying cid sid w1 h]

/-- When the handler left playback playing with the one-shot flag still
unset and the session dependencies changed, the commit fires the
session-start effect: it records the start instant and issues the one
`startSession` call. -/
theorem commit_fire (cid sid : String) (w0 w1 : World)
    (hp : w1.playing = true) (hs : w1.sessionStarted = false)
    (hdep : sessionDeps w1 ≠ sessionDeps w0) :
    (commit cid sid w0 w1).calls =
      w1.calls ++ [(w1.now, Call.startSession cid sid)] ∧
    (commit cid sid w0 w1).sessionStarted = true ∧
    (commit cid sid w0 w1).startTime = w1.now := by
  have hrun : runSessionEffect cid sid w1 =
      { w1 with sessionStarted := true
                startTime := w1.now
                calls := w1.calls ++ [(w1.now, Call.startSession cid sid)] } := by
    unfold runSessionEffect
    rw [if_pos (by simp [hp, hs])]
  simp only [commit, if_neg hdep]
  split <;> simp [hrun]

theorem timerOK_clear (w : World) (h : TimerOK w) : TimerOK (clearOwnedTimer w) :=
  Or.inl ⟨clearOwnedTimer_hbOwned w, clearOwnedTimer_clears w h⟩

theorem timerOK_runSessionEffect (cid sid : String) (w : World) (h : TimerOK w) :
    TimerOK (runSessionEffect cid sid w) := by
  unfold TimerOK at h ⊢
  simpa using h

theorem timerOK_runHeartbeatEffect (sid : String) (w : World) (h : TimerOK w) :
    TimerOK (runHeartbeatEffect sid w) := by
  have hc := clearOwnedTimer_clears w h
  simp only [runHeartbeatEffect]
  split
  · right
    exact ⟨⟨(clearOwnedTimer w).nextTid, (clearOwnedTimer w).now,
            (clearOwnedTimer w).currentTime, sid⟩, rfl, by simp [hc]⟩
  · exact Or.inl ⟨clearOwnedTimer_hbOwned w, hc⟩

theorem timerOK_commit (cid sid : String) (w0 w1 : World) (h : TimerOK w1) :
    TimerOK (commit cid sid w0 w1) := by
  simp only [commit]
  split
  · split
    · exact h
    · exact timerOK_runSessionEffect cid sid w1 h
  · apply timerOK_runHeartbeatEffect
    split
    · exact h
    · exact timerOK_runSessionEffect cid sid w1 h

/-- The timer bookkeeping stays coherent across every event. -/
theorem timerOK_step (cid sid : String) (w : World) (e : PlayerEvent)
    (h : TimerOK w) : TimerOK (step cid sid w e) := by
  cases e with
  | play =>
    simp only [step]
    split
    · exact timerOK_commit cid sid w _ h
    · exact h
  | pause =>
    simp only [step]
    split
    · exact timerOK_commit cid sid w _ h
    · exact h
  | timeUpdate t =>
    simp only [step]
    split
    · exact timerOK_commit cid sid w _ h
    · exact h
  | ended =>
    simp only [step]
    split
    · exact timerOK_commit cid sid w _ h
    · exact h
  | tick dt => exact h
  | unmount =>
    simp only [step]
    split
    · exact Or.inl ⟨clearOwnedTimer_hbOwned w, clearOwnedTimer_clears w h⟩
    · exact h

/-- A commit after a handler that did not touch the session state
preserves the session bookkeeping. -/
theorem sessionOK_commit (cid sid : String) (w w1 : World)
    (h : SessionOK cid sid w)
    (hs : w1.sessionStarted = w.sessionStarted)
    (ht : w1.startTime = w.startTime)
    (hc : startTimedCalls w1.calls = startTimedCalls w.calls) :
    SessionOK cid sid (commit cid sid w w1) := by
  by_cases hss : w.sessionStarted = true
  · have hs1 : w1.sessionStarted = true := by rw [hs]; exact hss
    constructor
    · intro hf
      rw [commit_sessionStarted_started cid sid w w1 hs1] at hf
      exact absurd hf (by simp)
    · intro _
      rw [commit_calls_started cid sid w w1 hs1,
          commit_startTime_started cid sid w w1 hs1, hc, ht]
      exact h.2 hss
  · have hss' : w.sessionStarted = false := by
      cases hv : w.sessionStarted
      · rfl
      · exact absurd hv hss
    have hs1 : w1.sessionStarted = false := by rw [hs]; exact hss'
    obtain ⟨hcw, hpw⟩ := h.1 hss'
    by_cases hp : w1.playing = true
    · have hdep : sessionDeps w1 ≠ sessionDeps w := by
        simp [sessionDeps, hp, hpw]
      obtain ⟨hc2, hs2, ht2⟩ := commit_fire cid sid w w1 hp hs1 hdep
      constructor
      · intro hf
        rw [hs2] at hf
        exact absurd hf (by simp)
      · intro _
        rw [hc2, ht2]
        rw [startTimedCalls_append, hc, hcw]
        simp [startTimedCalls]
    · have hp' : w1.playing = false := by
        cases hv : w1.playing
        · rfl
        · exact absurd hv hp
      constructor
      · intro _
        constructor
        · rw [commit_calls_notPlaying cid sid w w1 hp', hc, hcw]
        · rw [commit_playing, hp']
      · intro hf
        rw [commit_sessionStarted_notPlaying cid sid w w1 hp', hs1] at hf
        exact absurd hf (by simp)

/-- The session bookkeeping is preserved by every event. -/
theorem sessionOK_step (cid sid : String) (w : World) (e : PlayerEvent)
    (h : SessionOK cid sid w) : SessionOK cid sid (step cid sid w e) := by
  cases e with
  | play =>
    simp only [step]
    split
    · exact sessionOK_commit cid sid w _ h rfl rfl rfl
    · exact h
  | pause =>
    simp only [step]
    split
    · exact sessionOK_commit cid sid w _ h rfl rfl rfl
    · exact h
  | timeUpdate t =>
    simp only [step]
    split
    · exact sessionOK_commit cid sid w _ h rfl rfl rfl
    · exact h
  | ended =>
    simp only [step]
    split
    · exact sessionOK_commit cid sid w
        { w with playing := false
                 calls := w.calls ++
                   [(w.now, Call.endSession sid ((w.now - w.startTime) / 1000)),
                    (w.now, Call.onEnded)] }
        h rfl rfl
        (by rw [startTimedCalls_append]; simp [startTimedCalls])
    · exact h
  | tick dt =>
    constructor
    · intro hf
      obtain ⟨h1, h2⟩ := h.1 hf
      refine ⟨?_, h2⟩
      show startTimedCalls (w.calls ++ tickCalls w.now (w.now + dt) w.hbTimers) = []
      simp [h1]
    · intro hf
      have h2 := h.2 hf
      show startTimedCalls (w.calls ++ tickCalls w.now (w.now + dt) w.hbTimers) =
        [(w.startTime, Call.startSession cid sid)]
      simp [h2]
  | unmount =>
    simp only [step]
    split
    · constructor
      · intro hf
        have hf' : w.sessionStarted = false := by
          rw [← clearOwnedTimer_sessionStarted w]; exact hf
        obtain ⟨h1, h2⟩ := h.1 hf'
        constructor
        · show startTimedCalls (clearOwnedTimer w).calls = []
          rw [clearOwnedTimer_calls]; exact h1
        · show (clearOwnedTimer w).playing = false
          rw [clearOwnedTimer_playing]; exact h2
      · intro hf
        have hf' : w.sessionStarted = true := by
          rw [← clearOwnedTimer_sessionStarted w]; exact hf
        show startTimedCalls (clearOwnedTimer w).calls =
          [((clearOwnedTimer w).startTime, Call.startSession cid sid)]
        rw [clearOwnedTimer_calls, clearOwnedTimer_startTime]
        exact h.2 hf'
    · exact h

/-- After unmount no interval stays armed, across every event. -/
theorem unmountInv_step (cid sid : String) (w : World) (e : PlayerEvent)
    (hT : TimerOK w)
    (h : w.mounted = false → w.hbTimers = [] ∧ w.hbOwned = none) :
    (step cid sid w e).mounted = false →
      (step cid sid w e).hbTimers = [] ∧ (step cid sid w e).hbOwned = none := by
  cases e with
  | play =>
    simp only [step]
    split
    · intro hf
      rw [commit_mounted] at hf
      exact absurd hf (by simp_all)
    · exact h
  | pause =>
    simp only [step]
    split
    · intro hf
      rw [commit_mounted] at hf
      exact absurd hf (by simp_all)
    · exact h
  | timeUpdate t =>
    simp only [step]
    split
    · intro hf
      rw [commit_mounted] at hf
      exact absurd hf (by simp_all)
    · exact h
  | ended =>
    simp only [step]
    split
    · intro hf
      rw [commit_mounted] at hf
      exact absurd hf (by simp_all)
    · exact h
  | tick dt =>
    intro hf
    exact h hf
  | unmount =>
    simp only [step]
    split
    · intro _
      exact ⟨clearOwnedTimer_clears w hT, clearOwnedTimer_hbOwned w⟩
    · exact h

/-- The global invariant is preserved by every event. -/
theorem playerInv_step (cid sid : String) (w : World) (e : PlayerEvent)
    (h : PlayerInv cid sid w) : PlayerInv cid sid (step cid sid w e) :=
  ⟨timerOK_step cid sid w e h.1, sessionOK_step cid sid w e h.2.1,
   unmountInv_step cid sid w e h.1 h.2.2⟩

theorem playerInv_initWorld (cid sid : String) : PlayerInv cid sid initWorld := by
  refine ⟨Or.inl ⟨rfl, rfl⟩, ⟨fun _ => ⟨rfl, rfl⟩, fun hf => ?_⟩, fun _ => ⟨rfl, rfl⟩⟩
  exact absurd hf (by decide)

/-- The global invariant holds after every trace. -/
theorem playerInv_run (cid sid : String) (tr : List PlayerEvent) :
    PlayerInv cid sid (run cid sid tr) := by
  rw [run]
  have h : ∀ (l : List PlayerEvent) (w : World), PlayerInv cid sid w →
      PlayerInv cid sid (List.foldl (step cid sid) w l) := by
    intro l
    induction l with
    | nil => intro w hw; exact hw
    | cons e es ih =>
      intro w hw
      exact ih (step cid sid w e) (playerInv_step cid sid w e hw)
  exact h tr initWorld (playerInv_initWorld cid sid)

theorem run_append (cid sid : String) (a b : List PlayerEvent) :
    run cid sid (a ++ b) = List.foldl (step cid sid) (run cid sid a) b := by
  rw [run, run, List.foldl_append]

/-- The one-shot flag never resets. -/
theorem sessionStarted_mono_step (cid sid : String) (w : World) (e : PlayerEvent)
    (h : w.sessionStarted = true) : (step cid sid w e).sessionStarted = true := by
  cases e with
  | play =>
    simp only [step]
    split
    · exact commit_sessionStarted_started cid sid w _ h
    · exact h
  | pause =>
    simp only [step]
    split
    · exact commit_sessionStarted_started cid sid w _ h
    · exact h
  | timeUpdate t =>
    simp only [step]
    split
    · exact commit_sessionStarted_started cid sid w _ h
    · exact h
  | ended =>
    simp only [step]
    split
    · exact commit_sessionStarted_started cid sid w _ h
    · exact h
  | tick dt => exact h
  | unmount =>
    simp only [step]
    split
    · show (clearOwnedTimer w).sessionStarted = true
      rw [clearOwnedTimer_sessionStarted]; exact h
    · exact h

/-- Once the session has started, the captured start instant and the
logged `startSession` call are frozen. -/
theorem startFrozen_step (cid sid : String) (w : World) (e : PlayerEvent)
    (h : w.sessionStarted = true) :
    (step cid sid w e).startTime = w.startTime ∧
    startTimedCalls (step cid sid w e).calls = startTimedCalls w.calls := by
  cases e with
  | play =>
    simp only [step]
    split
    · exact ⟨commit_startTime_started cid sid w { w with playing := true } h,
        by rw [commit_calls_started cid sid w { w with playing := true } h]⟩
    · exact ⟨rfl, rfl⟩
  | pause =>
    simp only [step]
    split
    · exact ⟨commit_startTime_started cid sid w { w with playing := false } h,
        by rw [commit_calls_started cid sid w { w with playing := false } h]⟩
    · exact ⟨rfl, rfl⟩
  | timeUpdate t =>
    simp only [step]
    split
    · exact ⟨commit_startTime_started cid sid w { w with currentTime := t } h,
        by rw [commit_calls_started cid sid w { w with currentTime := t } h]⟩
    · exact ⟨rfl, rfl⟩
  | ended =>
    simp only [step]
    split
    · refine ⟨commit_startTime_started cid sid w
        { w with playing := false
                 calls := w.calls ++
                   [(w.now, Call.endSession sid ((w.now - w.startTime) / 1000)),
                    (w.now, Call.onEnded)] } h, ?_⟩
      rw [commit_calls_started cid sid w
        { w with playing := false
                 calls := w.calls ++
                   [(w.now, Call.endSession sid ((w.now - w.startTime) / 1000)),
                    (w.now, Call.onEnded)] } h]
      show startTimedCalls (w.calls ++
        [(w.now, Call.endSession sid ((w.now - w.startTime) / 1000)),
         (w.now, Call.onEnded)]) = startTimedCalls w.calls
      rw [startTimedCalls_append]
      simp [startTimedCalls]
    · exact ⟨rfl, rfl⟩
  | tick dt =>
    refine ⟨rfl, ?_⟩
    show startTimedCalls (w.calls ++ tickCalls w.now (w.now + dt) w.hbTimers) =
      startTimedCalls w.calls
    simp
  | unmount =>
    simp only [step]
    split
    · exact ⟨by rw [clearOwnedTimer_startTime], by rw [clearOwnedTimer_calls]⟩
    · exact ⟨rfl, rfl⟩

theorem startFrozen_foldl (cid sid : String) (b : List PlayerEvent) (w : World)
    (h : w.sessionStarted = true) :
    (List.foldl (step cid sid) w b).startTime = w.startTime ∧
    startTimedCalls (List.foldl (step cid sid) w b).calls = startTimedCalls w.calls ∧
    (List.foldl (step cid sid) w b).sessionStarted = true := by
  induction b generalizing w with
  | nil => exact ⟨rfl, rfl, h⟩
  | cons e es ih =>
    simp only [List.foldl_cons]
    have h1 := startFrozen_step cid sid w e h
    have h2 := sessionStarted_mono_step cid sid w e h
    obtain ⟨ih1, ih2, ih3⟩ := ih (step cid sid w e) h2
    exact ⟨by rw [ih1, h1.1], by rw [ih2, h1.2], ih3⟩

/-- Only unmount changes the mount flag. -/
theorem mounted_step_ne (cid sid : String) (w : World) (e : PlayerEvent)
    (he : e ≠ PlayerEvent.unmount) :
    (step cid sid w e).mounted = w.mounted := by
  cases e with
  | play =>
    simp only [step]
    split
    · rw [commit_mounted]
    · rfl
  | pause =>
    simp only [step]
    split
    · rw [commit_mounted]
    · rfl
  | timeUpdate t =>
    simp only [step]
    split
    · rw [commit_mounted]
    · rfl
  | ended =>
    simp only [step]
    split
    · rw [commit_mounted]
    · rfl
  | tick dt => rfl
  | unmount => exact absurd rfl he

/-- A trace that never unmounts leaves the player mounted. -/
theorem mounted_run (cid sid : String) (tr : List PlayerEvent)
    (h : PlayerEvent.unmount ∉ tr) : (run cid sid tr).mounted = true := by
  rw [run]
  have key : ∀ (l : List PlayerEvent) (w : World), PlayerEvent.unmount ∉ l →
      w.mounted = true → (List.foldl (step cid sid) w l).mounted = true := by
    intro l
    induction l with
    | nil => intro w _ hw; exact hw
    | cons e es ih =>
      intro w hl hw
      simp only [List.foldl_cons]
      have he : e ≠ PlayerEvent.unmount := fun hc => hl (hc ▸ List.mem_cons_self e es)
      exact ih (step cid sid w e) (fun hc => hl (List.mem_cons_of_mem e hc))
        (by rw [mounted_step_ne cid sid w e he]; exact hw)
  exact key tr initWorld h rfl

/-- Before any play event, nothing plays, the one-shot flag is unset
and no `startSession` call was logged. -/
theorem noPlay_step (cid sid : String) (w : World) (e : PlayerEvent)
    (he : e ≠ PlayerEvent.play)
    (hp : w.playing = false) (hs : w.sessionStarted = false)
    (hc : startTimedCalls w.calls = []) :
    (step cid sid w e).playing = false ∧
    (step cid sid w e).sessionStarted = false ∧
    startTimedCalls (step cid sid w e).calls = [] := by
  cases e with
  | play => exact absurd rfl he
  | pause =>
    simp only [step]
    split
    · refine ⟨by rw [commit_playing], ?_, ?_⟩
      · rw [commit_sessionStarted_notPlaying cid sid w { w with playing := false } rfl]
        exact hs
      · rw [commit_calls_notPlaying cid sid w { w with playing := false } rfl]
        exact hc
    · exact ⟨hp, hs, hc⟩
  | timeUpdate t =>
    simp only [step]
    split
    · refine ⟨by rw [commit_playing]; exact hp, ?_, ?_⟩
      · rw [commit_sessionStarted_notPlaying cid sid w { w with currentTime := t } hp]
        exact hs
      · rw [commit_calls_notPlaying cid sid w { w with currentTime := t } hp]
        exact hc
    · exact ⟨hp, hs, hc⟩
  | ended =>
    simp only [step]
    split
    · refine ⟨by rw [commit_playing], ?_, ?_⟩
      · rw [commit_sessionStarted_notPlaying cid sid w
          { w with playing := false
                   calls := w.calls ++
                     [(w.now, Call.endSession sid ((w.now - w.startTime) / 1000)),
                      (w.now, Call.onEnded)] } rfl]
        exact hs
      · rw [commit_calls_notPlaying cid sid w
          { w with playing := false
                   calls := w.calls ++
                     [(w.now, Call.endSession sid ((w.now - w.startTime) / 1000)),
                      (w.now, Call.onEnded)] } rfl]
        show startTimedCalls (w.calls ++
          [(w.now, Call.endSession sid ((w.now - w.startTime) / 1000)),
           (w.now, Call.onEnded)]) = []
        rw [startTimedCalls_append, hc]
        simp [startTimedCalls]
    · exact ⟨hp, hs, hc⟩
  | tick dt =>
    refine ⟨hp, hs, ?_⟩
    show startTimedCalls (w.calls ++ tickCalls w.now (w.now + dt) w.hbTimers) = []
    simp [hc]
  | unmount =>
    simp only [step]
    split
    · exact ⟨by rw [clearOwnedTimer_playing]; exact hp,
        by rw [clearOwnedTimer_sessionStarted]; exact hs,
        by rw [clearOwnedTimer_calls]; exact hc⟩
    · exact ⟨hp, hs, hc⟩

/-- Lemma `noPlay_step`, folded over a play-free trace. -/
theorem noPlay_run (cid sid : String) (tr : List PlayerEvent)
    (h : PlayerEvent.play ∉ tr) :
    (run cid sid tr).playing = false ∧
    (run cid sid tr).sessionStarted = false ∧
    startTimedCalls (run cid sid tr).calls = [] := by
  rw [run]
  have key : ∀ (l : List PlayerEvent) (w : World), PlayerEvent.play ∉ l →
      w.playing = false → w.sessionStarted = false →
      startTimedCalls w.calls = [] →
      (List.foldl (step cid sid) w l).playing = false ∧
      (List.foldl (step cid sid) w l).sessionStarted = false ∧
      startTimedCalls (List.foldl (step cid sid) w l).calls = [] := by
    intro l
    induction l with
    | nil => intro w _ h1 h2 h3; exact ⟨h1, h2, h3⟩
    | cons e es ih =>
      intro w hl h1 h2 h3
      simp only [List.foldl_cons]
      have he : e ≠ PlayerEvent.play := fun hc => hl (hc ▸ List.mem_cons_self e es)
      obtain ⟨g1, g2, g3⟩ := noPlay_step cid sid w e he h1 h2 h3
      exact ih (step cid sid w e) (fun hc => hl (List.mem_cons_of_mem e hc)) g1 g2 g3
  exact key tr initWorld h rfl rfl rfl

/-- The first play event on a mounted player fires the session-start
effect at that instant: it records `Date.now()` and issues the single
`startSession` call. -/
theorem step_play_first (cid sid : String) (w : World) (hm : w.mounted = true)
    (hp : w.playing = false) (hs : w.sessionStarted = false) :
    (step cid sid w PlayerEvent.play).calls =
      w.calls ++ [(w.now, Call.startSession cid sid)] ∧
    (step cid sid w PlayerEvent.play).sessionStarted = true := by
  simp only [step, if_pos hm]
  have hdep : sessionDeps { w with playing := true } ≠ sessionDeps w := by
    simp [sessionDeps, hp]
  obtain ⟨h1, h2, h3⟩ :=
    commit_fire cid sid w { w with playing := true } rfl hs hdep
  exact ⟨h1, h2⟩

/-- Claim C1: for every sequence of play/pause events observed by a
mounted `WebPlayer`, exactly one `startSession` call is issued for that
mount — at most one `startSession` call is ever logged; a trace with no
play event logs none; and for any trace containing a play event before
any unmount, exactly one `startSession` call is logged, issued at the
instant of the first play (so re-entering playing after a pause never
starts a second session). -/
theorem C1_startSession_once (cid sid : String) (tr : List PlayerEvent) :
    (startTimedCalls (run cid sid tr).calls).length ≤ 1 ∧
    (PlayerEvent.play ∉ tr → startTimedCalls (run cid sid tr).calls = []) ∧
    (∀ a b, tr = a ++ PlayerEvent.play :: b → PlayerEvent.play ∉ a →
      PlayerEvent.unmount ∉ a →
      startTimedCalls (run cid sid tr).calls =
        [((run cid sid a).now, Call.startSession cid sid)]) := by
  refine ⟨?_, ?_, ?_⟩
  · have h := (playerInv_run cid sid tr).2.1
    by_cases hs : (run cid sid tr).sessionStarted = true
    · rw [h.2 hs]
      simp
    · have hs' : (run cid sid tr).sessionStarted = false := by
        cases hv : (run cid sid tr).sessionStarted
        · rfl
        · exact absurd hv hs
      rw [(h.1 hs').1]
      simp
  · intro hnp
    exact (noPlay_run cid sid tr hnp).2.2
  · intro a b htr hpa hua
    subst htr
    have hmounted : (run cid sid a).mounted = true := mounted_run cid sid a hua
    obtain ⟨hp0, hs0, hc0⟩ := noPlay_run cid sid a hpa
    obtain ⟨hfc, hfs⟩ := step_play_first cid sid (run cid sid a) hmounted hp0 hs0
    have hfrozen := startFrozen_foldl cid sid b
      (step cid sid (run cid sid a) PlayerEvent.play) hfs
    rw [run_append, List.foldl_cons, hfrozen.2.1, hfc,
      startTimedCalls_append, hc0]
    simp [startTimedCalls]

/-- Witness for C1: a play/pause/play cycle logs exactly the one
`startSession` call from the first play at t = 0. -/
theorem C1_startSession_once_witness :
    startTimedCalls
      (run "1" "sid-1" [PlayerEvent.play, PlayerEvent.pause, PlayerEvent.play]).calls
      = [(0, Call.startSession "1" "sid-1")] := by
  have h := (C1_startSession_once "1" "sid-1"
      [PlayerEvent.play, PlayerEvent.pause, PlayerEvent.play]).2.2
      [] [PlayerEvent.pause, PlayerEvent.play] rfl (by decide) (by decide)
  simpa using h

/-- Claim C2 fails on the code (heartbeat effect, WebPlayer.tsx lines
122-130): because `currentTime` is in the heartbeat effect's dependency
array, every position update clears and re-creates the 30-second
interval, restarting its countdown, and the interval closure captures
the `currentTime` of the render that armed it.  Concretely: playing at
t = 0 and advancing 30 s of wall-clock time with position updates at
10 s, 20 s and 30 s yields no heartbeat at all; and with no position
updates whatsoever, the timer does fire at t = 30 s but sends the stale
captured position 0 — in neither rendering of the claimed scenario does
`sendHeartbeat(sid, 30)` occur. -/
theorem C2_heartbeat_bug_eval :
    hbTimedCalls (run "1" "sid-1"
      [PlayerEvent.play,
       PlayerEvent.tick 10000, PlayerEvent.timeUpdate 10,
       PlayerEvent.tick 10000, PlayerEvent.timeUpdate 20,
       PlayerEvent.tick 10000, PlayerEvent.timeUpdate 30]).calls = [] ∧
    hbTimedCalls (run "1" "sid-1"
      [PlayerEvent.play, PlayerEvent.tick 30000]).calls
      = [(30000, Call.heartbeat "sid-1" 0)] := by
  constructor
  · decide
  · decide

/-- Once unmounted with no armed interval, nothing changes any more:
handlers are detached and no timer can fire. -/
theorem frozen_step (cid sid : String) (w : World) (e : PlayerEvent)
    (hm : w.mounted = false) (ht : w.hbTimers = []) :
    (step cid sid w e).mounted = false ∧ (step cid sid w e).hbTimers = [] ∧
    (step cid sid w e).calls = w.calls := by
  have hm' : ¬ w.mounted = true := by rw [hm]; simp
  cases e with
  | play =>
    have hw : step cid sid w PlayerEvent.play = w := by
      simp only [step, if_neg hm']
    rw [hw]
    exact ⟨hm, ht, rfl⟩
  | pause =>
    have hw : step cid sid w PlayerEvent.pause = w := by
      simp only [step, if_neg hm']
    rw [hw]
    exact ⟨hm, ht, rfl⟩
  | timeUpdate t =>
    have hw : step cid sid w (PlayerEvent.timeUpdate t) = w := by
      simp only [step, if_neg hm']
    rw [hw]
    exact ⟨hm, ht, rfl⟩
  | ended =>
    have hw : step cid sid w PlayerEvent.ended = w := by
      simp only [step, if_neg hm']
    rw [hw]
    exact ⟨hm, ht, rfl⟩
  | tick dt =>
    refine ⟨hm, ht, ?_⟩
    show w.calls ++ tickCalls w.now (w.now + dt) w.hbTimers = w.calls
    rw [ht]
    simp [tickCalls]
  | unmount =>
    have hw : step cid sid w PlayerEvent.unmount = w := by
      simp only [step, if_neg hm']
    rw [hw]
    exact ⟨hm, ht, rfl⟩

/-- Unmounting cancels the armed heartbeat interval and issues no
call. -/
theorem step_unmount_clears (cid sid : String) (w : World)
    (hI : PlayerInv cid sid w) :
    (step cid sid w PlayerEvent.unmount).mounted = false ∧
    (step cid sid w PlayerEvent.unmount).hbTimers = [] ∧
    (step cid sid w PlayerEvent.unmount).calls = w.calls := by
  simp only [step]
  split
  · exact ⟨rfl, clearOwnedTimer_clears w hI.1, by rw [clearOwnedTimer_calls]⟩
  · rename_i hm
    have hm' : w.mounted = false := by
      cases hv : w.mounted
      · rfl
      · exact absurd hv hm
    obtain ⟨ht, _⟩ := hI.2.2 hm'
    exact ⟨hm', ht, rfl⟩

/-- Lemma `frozen_step` folded over any post-unmount trace. -/
theorem frozen_foldl (cid sid : String) (l : List PlayerEvent) (w : World)
    (hm : w.mounted = false) (ht : w.hbTimers = []) :
    (List.foldl (step cid sid) w l).mounted = false ∧
    (List.foldl (step cid sid) w l).hbTimers = [] ∧
    (List.foldl (step cid sid) w l).calls = w.calls := by
  induction l generalizing w with
  | nil => exact ⟨hm, ht, rfl⟩
  | cons e es ih =>
    simp only [List.foldl_cons]
    obtain ⟨g1, g2, g3⟩ := frozen_step cid sid w e hm ht
    obtain ⟨f1, f2, f3⟩ := ih (step cid sid w e) g1 g2
    exact ⟨f1, f2, by rw [f3, g3]⟩

/-- Claim C7: at every instant there is at most one armed heartbeat
timer per session — re-arming on a playback-state change invalidates
the prior interval before creating a new one, so heartbeat firings for
a session are serialized — and after unmount, in any state, no
heartbeat timer remains armed and no further heartbeats fire. -/
theorem C7_heartbeat_timer_discipline (cid sid : String)
    (tr tr' : List PlayerEvent) :
    (run cid sid tr).hbTimers.length ≤ 1 ∧
    (run cid sid (tr ++ PlayerEvent.unmount :: tr')).hbTimers = [] ∧
    hbTimedCalls (run cid sid (tr ++ PlayerEvent.unmount :: tr')).calls =
      hbTimedCalls (run cid sid (tr ++ [PlayerEvent.unmount])).calls := by
  have hu := step_unmount_clears cid sid (run cid sid tr) (playerInv_run cid sid tr)
  have hfreeze := frozen_foldl cid sid tr'
    (step cid sid (run cid sid tr) PlayerEvent.unmount) hu.1 hu.2.1
  refine ⟨?_, ?_, ?_⟩
  · rcases (playerInv_run cid sid tr).1 with ⟨_, h2⟩ | ⟨t, _, h2⟩ <;> rw [h2] <;> simp
  · rw [run_append, List.foldl_cons]
    exact hfreeze.2.1
  · rw [run_append cid sid tr (PlayerEvent.unmount :: tr'), List.foldl_cons,
      run_append cid sid tr [PlayerEvent.unmount], List.foldl_cons, List.foldl_nil,
      hfreeze.2.2]

theorem runSessionEffect_calls_shape (cid sid : String) (w : World) :
    (runSessionEffect cid sid w).calls = w.calls ∨
    (runSessionEffect cid sid w).calls =
      w.calls ++ [(w.now, Call.startSession cid sid)] := by
  unfold runSessionEffect
  split
  · right; rfl
  · left; rfl

/-- A commit appends at most one `startSession` entry to the call
log. -/
theorem commit_calls_shape (cid sid : String) (w0 w1 : World) :
    (commit cid sid w0 w1).calls = w1.calls ∨
    (commit cid sid w0 w1).calls =
      w1.calls ++ [(w1.now, Call.startSession cid sid)] := by
  simp only [commit]
  split
  · split
    · left; rfl
    · exact runSessionEffect_calls_shape cid sid w1
  · rw [runHeartbeatEffect_calls]
    split
    · left; rfl
    · exact runSessionEffect_calls_shape cid sid w1

/-- Only an `ended` event can append an `endSession` entry. -/
theorem endCalls_step_ne (cid sid : String) (w : World) (e : PlayerEvent)
    (he : e ≠ PlayerEvent.ended) :
    endTimedCalls (step cid sid w e).calls = endTimedCalls w.calls := by
  cases e with
  | play =>
    simp only [step]
    split
    · rcases commit_calls_shape cid sid w { w with playing := true } with h | h <;>
        simp [h, endTimedCalls]
    · rfl
  | pause =>
    simp only [step]
    split
    · rcases commit_calls_shape cid sid w { w with playing := false } with h | h <;>
        simp [h, endTimedCalls]
    · rfl
  | timeUpdate t =>
    simp only [step]
    split
    · rcases commit_calls_shape cid sid w { w with currentTime := t } with h | h <;>
        simp [h, endTimedCalls]
    · rfl
  | ended => exact absurd rfl he
  | tick dt =>
    show endTimedCalls (w.calls ++ tickCalls w.now (w.now + dt) w.hbTimers) =
      endTimedCalls w.calls
    simp
  | unmount =>
    simp only [step]
    split
    · rw [clearOwnedTimer_calls]
    · rfl

theorem endCalls_foldl_ne (cid sid : String) (l : List PlayerEvent) (w : World)
    (h : PlayerEvent.ended ∉ l) :
    endTimedCalls (List.foldl (step cid sid) w l).calls =
      endTimedCalls w.calls := by
  induction l generalizing w with
  | nil => rfl
  | cons e es ih =>
    simp only [List.foldl_cons]
    have he : e ≠ PlayerEvent.ended := fun hc => h (hc ▸ List.mem_cons_self e es)
    rw [ih (step cid sid w e) (fun hc => h (List.mem_cons_of_mem e hc)),
      endCalls_step_ne cid sid w e he]

/-- Model of `handleEnded` on a mounted player: the handler logs the
`endSession` call with `Math.floor((Date.now() - startTimeRef.current)
/ 1000)` and then the `onEnded` callback; the ensuing commit adds
nothing because playback is no longer playing. -/
theorem step_ended_calls (cid sid : String) (w : World) (hm : w.mounted = true) :
    (step cid sid w PlayerEvent.ended).calls =
      w.calls ++ [(w.now, Call.endSession sid ((w.now - w.startTime) / 1000)),
                  (w.now, Call.onEnded)] := by
  simp only [step, if_pos hm]
  exact commit_calls_notPlaying cid sid w
    { w with playing := false
             calls := w.calls ++
               [(w.now, Call.endSession sid ((w.now - w.startTime) / 1000)),
                (w.now, Call.onEnded)] } rfl

/-- The call log only grows. -/
theorem calls_step_grows (cid sid : String) (w : World) (e : PlayerEvent) :
    ∃ cs, (step cid sid w e).calls = w.calls ++ cs := by
  cases e with
  | play =>
    simp only [step]
    split
    · rcases commit_calls_shape cid sid w { w with playing := true } with h | h
      · exact ⟨[], by rw [h]; simp⟩
      · exact ⟨[(w.now, Call.startSession cid sid)], h⟩
    · exact ⟨[], by simp⟩
  | pause =>
    simp only [step]
    split
    · rcases commit_calls_shape cid sid w { w with playing := false } with h | h
      · exact ⟨[], by rw [h]; simp⟩
      · exact ⟨[(w.now, Call.startSession cid sid)], h⟩
    · exact ⟨[], by simp⟩
  | timeUpdate t =>
    simp only [step]
    split
    · rcases commit_calls_shape cid sid w { w with currentTime := t } with h | h
      · exact ⟨[], by rw [h]; simp⟩
      · exact ⟨[(w.now, Call.startSession cid sid)], h⟩
    · exact ⟨[], by simp⟩
  | ended =>
    simp only [step]
    split
    · rcases commit_calls_shape cid sid w
        { w with playing := false
                 calls := w.calls ++
                   [(w.now, Call.endSession sid ((w.now - w.startTime) / 1000)),
                    (w.now, Call.onEnded)] } with h | h
      · exact ⟨[(w.now, Call.endSession sid ((w.now - w.startTime) / 1000)),
          (w.now, Call.onEnded)], h⟩
      · refine ⟨[(w.now, Call.endSession sid ((w.now - w.startTime) / 1000)),
          (w.now, Call.onEnded), (w.now, Call.startSession cid sid)], ?_⟩
        rw [h]
        simp
    · exact ⟨[], by simp⟩
  | tick dt => exact ⟨tickCalls w.now (w.now + dt) w.hbTimers, rfl⟩
  | unmount =>
    simp only [step]
    split
    · exact ⟨[], by rw [clearOwnedTimer_calls]; simp⟩
    · exact ⟨[], by simp⟩

theorem calls_foldl_grows (cid sid : String) (l : List PlayerEvent) (w : World) :
    ∃ cs, (List.foldl (step cid sid) w l).calls = w.calls ++ cs := by
  induction l generalizing w with
  | nil => exact ⟨[], by simp⟩
  | cons e es ih =>
    simp only [List.foldl_cons]
    obtain ⟨c1, h1⟩ := calls_step_grows cid sid w e
    obtain ⟨c2, h2⟩ := ih (step cid sid w e)
    exact ⟨c1 ++ c2, by rw [h2, h1, List.append_assoc]⟩

/-- Claim C4 counterexample: the claim asserts `endSession` is called
exactly once per session, but `handleEnded` has no once-guard —
pressing play again after natural completion replays the video and a
second `ended` event issues a second `endSession` for the same
session: the trace play, +5 s, ended, play, +4 s, ended logs two
`endSession` calls with the same session id. -/
theorem C4_endSession_counterexample :
    endTimedCalls (run "1" "sid-1"
      [PlayerEvent.play, PlayerEvent.tick 5000, PlayerEvent.ended,
       PlayerEvent.play, PlayerEvent.tick 4000, PlayerEvent.ended]).calls
      = [(5000, Call.endSession "sid-1" 5), (9000, Call.endSession "sid-1" 9)] := by
  decide

/-- Claim C4 (amended): on each `ended` event the watch time passed to
`endSession` equals the wall-clock time elapsed between the captured
session start instant (the timestamp of the unique logged
`startSession` call) and the ended event, rounded down to whole
seconds, and the caller-supplied completion callback is logged
immediately after the `endSession` call; `endSession` is called exactly
once per `ended` event — hence exactly once per session on any trace
with a single `ended` event; a replay after `ended` would fire it
again. -/
theorem C4_endSession_watchTime (cid sid : String) (a b : List PlayerEvent)
    (ha : PlayerEvent.ended ∉ a) (hb : PlayerEvent.ended ∉ b)
    (hu : PlayerEvent.unmount ∉ a)
    (hs : (run cid sid a).sessionStarted = true) :
    startTimedCalls (run cid sid (a ++ PlayerEvent.ended :: b)).calls =
      [((run cid sid a).startTime, Call.startSession cid sid)] ∧
    endTimedCalls (run cid sid (a ++ PlayerEvent.ended :: b)).calls =
      [((run cid sid a).now,
        Call.endSession sid
          (((run cid sid a).now - (run cid sid a).startTime) / 1000))] ∧
    List.IsInfix
      [((run cid sid a).now,
        Call.endSession sid
          (((run cid sid a).now - (run cid sid a).startTime) / 1000)),
       ((run cid sid a).now, Call.onEnded)]
      (run cid sid (a ++ PlayerEvent.ended :: b)).calls := by
  have hm : (run cid sid a).mounted = true := mounted_run cid sid a hu
  have hrw : run cid sid (a ++ PlayerEvent.ended :: b) =
      List.foldl (step cid sid) (step cid sid (run cid sid a) PlayerEvent.ended) b := by
    rw [run_append, List.foldl_cons]
  have hec := step_ended_calls cid sid (run cid sid a) hm
  have hsA : endTimedCalls (run cid sid a).calls = [] := by
    rw [run, endCalls_foldl_ne cid sid a initWorld ha]
    rfl
  refine ⟨?_, ?_, ?_⟩
  · have hstep := startFrozen_step cid sid (run cid sid a) PlayerEvent.ended hs
    have hmono := sessionStarted_mono_step cid sid (run cid sid a) PlayerEvent.ended hs
    have hfold := startFrozen_foldl cid sid b
      (step cid sid (run cid sid a) PlayerEvent.ended) hmono
    rw [hrw, hfold.2.1, hstep.2]
    exact ((playerInv_run cid sid a).2.1).2 hs
  · rw [hrw, endCalls_foldl_ne cid sid b _ hb, hec,
      endTimedCalls_append, hsA]
    simp [endTimedCalls]
  · obtain ⟨cs, hcs⟩ := calls_foldl_grows cid sid b
      (step cid sid (run cid sid a) PlayerEvent.ended)
    rw [hrw, hcs, hec]
    exact ⟨(run cid sid a).calls, cs, by rw [List.append_assoc]⟩

/-- Witness for C4 (amended): play at t = 0, end at t = 5 s — one
`endSession` with watch time 5 s. -/
theorem C4_endSession_watchTime_witness :
    (run "1" "sid-1" [PlayerEvent.play, PlayerEvent.tick 5000]).sessionStarted
      = true ∧
    endTimedCalls (run "1" "sid-1"
      ([PlayerEvent.play, PlayerEvent.tick 5000] ++ PlayerEvent.ended :: [])).calls
      = [((run "1" "sid-1" [PlayerEvent.play, PlayerEvent.tick 5000]).now,
          Call.endSession "sid-1"
            (((run "1" "sid-1" [PlayerEvent.play, PlayerEvent.tick 5000]).now -
              (run "1" "sid-1"
                [PlayerEvent.play, PlayerEvent.tick 5000]).startTime) / 1000))] :=
  ⟨by decide,
   (C4_endSession_watchTime "1" "sid-1" [PlayerEvent.play, PlayerEvent.tick 5000] []
     (by decide) (by decide) (by decide) (by decide)).2.1⟩
